import Mathlib

/-!
# Verification of the arcade relay / heartbeat server

A shallow embedding of the `Server` code (`arcade` package: heartbeat
scheduling, RTT estimation, and the `handleMessage` dispatcher) together
with proofs about the spec's claims.

Modelling conventions:
* `time.Time` and `time.Duration` are nanosecond counts, modelled as `Int`
  (the Go values are `int64`; none of the verified properties depend on
  64-bit wraparound, which cannot occur at realistic time scales).
* Go maps are modelled as association lists with first-match lookup;
  `setA` replaces the binding in place (or appends a fresh one), `eraseA`
  removes it, mirroring Go map assignment and `delete`.
* `float64` appears only in `Client.Distance` (a whole number of
  milliseconds in the code); it is modelled as `Int`, exact for every
  value below `2^53` ms.
* Logging (`fmt.Println`, `log.Println`) is not modelled; all other side
  effects of the dispatcher are recorded in an explicit `Effect` trace.
-/

set_option autoImplicit false

namespace Arcade

/-! ## Association-list maps (the model of Go maps) -/

variable {κ ν : Type} [DecidableEq κ]

/-- First-match lookup, the model of a Go map read `m[k]` (combined with
its `ok` flag). -/
def getA : List (κ × ν) → κ → Option ν
  | [], _ => none
  | (k', v) :: rest, k => if k' = k then some v else getA rest k

/-- Go map read of a possibly missing key: yields the zero value `d`. -/
def getDA (m : List (κ × ν)) (k : κ) (d : ν) : ν :=
  (getA m k).getD d

/-- Go map assignment `m[k] = v`: replace the first binding of `k`, or
append a fresh one. -/
def setA : List (κ × ν) → κ → ν → List (κ × ν)
  | [], k, v => [(k, v)]
  | (k', v') :: rest, k, v =>
      if k' = k then (k, v) :: rest else (k', v') :: setA rest k v

/-- Go `delete(m, k)`: remove every binding of `k` (equal to removing the
first when keys are distinct). -/
def eraseA : List (κ × ν) → κ → List (κ × ν)
  | [], _ => []
  | (k', v) :: rest, k =>
      if k' = k then eraseA rest k else (k', v) :: eraseA rest k

/-- Update the value stored at `k` in place, if present (the model of
mutating a record through a pointer obtained from the map). -/
def updateA (m : List (κ × ν)) (k : κ) (f : ν → ν) : List (κ × ν) :=
  m.map (fun p => if p.1 = k then (p.1, f p.2) else p)

/-! ## Timing constants (source lines 16–18) -/

/-- `time.Millisecond` in nanoseconds. -/
def Millisecond : Int := 1000000

/-- `timeoutInterval = 2500 * time.Millisecond`. -/
def timeoutInterval : Int := 2500 * Millisecond

/-- `heartbeatInterval = 250 * time.Millisecond`. -/
def heartbeatInterval : Int := 250 * Millisecond

/-- `rttAverageNum = 10`. -/
def rttAverageNum : Nat := 10

/-! ## Liveness record and mean-RTT computation -/

/-- `ConnectedClientInfo`: the per-peer liveness record. -/
structure ConnectedClientInfo where
  LastHeartbeat : Int
  HeartbeatSendTimes : List (Nat × Int)
  RTTs : List Int
deriving Repr, DecidableEq

/-- The loop of `GetMeanRTT`: `for i := len(RTTs)-1; i >= 0 && i >= len(RTTs)-(rttAverageNum+1); i--`,
accumulating `sum += RTTs[i]; count++`.  The first argument of the
recursion is `i + 1`, so `0` is the `i < 0` loop exit, and the guard
`i >= len - (rttAverageNum+1)` (over `int`) is `len ≤ i + (rttAverageNum+1)`
over `Nat`. -/
def getMeanRTTLoop (RTTs : List Int) : Nat → Int → Nat → Int × Nat
  | 0, sum, count => (sum, count)
  | i + 1, sum, count =>
      if RTTs.length ≤ i + (rttAverageNum + 1) then
        getMeanRTTLoop RTTs i (sum + RTTs.getD i 0) (count + 1)
      else (sum, count)

/-- `ConnectedClientInfo.GetMeanRTT` (source lines 26–40).  Division is
Go `int64` division, i.e. truncation toward zero (`Int.tdiv`). -/
def ConnectedClientInfo.GetMeanRTT (c : ConnectedClientInfo) : Int :=
  let r := getMeanRTTLoop c.RTTs c.RTTs.length 0 0
  if r.2 = 0 then (-1) * Millisecond else Int.tdiv r.1 (Int.ofNat r.2)

/-- Go `Duration.Milliseconds()`: `int64(d) / 1e6`, truncation toward
zero. -/
def durationMilliseconds (d : Int) : Int :=
  Int.tdiv d Millisecond

/-- The mean-RTT computation as the spec words it, with the averaging
window `n` as a parameter: the arithmetic mean of at most the last `n`
recorded samples taken most-recent-first, and the negative "unknown"
sentinel when no samples exist. -/
def specMeanRTTLastN (n : Nat) (RTTs : List Int) : Int :=
  let w := (RTTs.reverse).take n
  if w.length = 0 then -Millisecond else Int.tdiv w.sum (Int.ofNat w.length)

/-- The spec's claimed mean: window of `rttAverageNum` (= 10) samples. -/
def specMeanRTT (RTTs : List Int) : Int :=
  specMeanRTTLastN rttAverageNum RTTs

/-! ## Messages -/

/-- `message.Message`, the common envelope header embedded in every
message variant (sender, recipient, correlation id `MessageID`, kind). -/
structure Message where
  SenderID : String
  RecipientID : String
  MessageID : String
  MsgType : String
deriving Repr, DecidableEq

/-- The closed set of message variants handled by `handleMessage`:
`DisconnectMessage`, `HeartbeatMessage{Seq, Metadata}`,
`HeartbeatReplyMessage{Seq}`, `ErrorMessage{Error}`, and every other
application payload collapsed into `AppMessage` with an opaque payload. -/
inductive Msg where
  | DisconnectMessage (Message : Message)
  | HeartbeatMessage (Message : Message) (Seq : Nat) (Metadata : String)
  | HeartbeatReplyMessage (Message : Message) (Seq : Nat)
  | ErrorMessage (Message : Message) (Error : String)
  | AppMessage (Message : Message) (Payload : String)
deriving Repr, DecidableEq

/-- The embedded header, extracted in the code by
`reflect.ValueOf(msg).FieldByName("Message")`. -/
def Msg.base : Msg → Message
  | .DisconnectMessage m => m
  | .HeartbeatMessage m _ _ => m
  | .HeartbeatReplyMessage m _ => m
  | .ErrorMessage m _ => m
  | .AppMessage m _ => m

/-- Replace the embedded header (the reflection-based field writes of the
reply-stamping code). -/
def Msg.withBase : Msg → Message → Msg
  | .DisconnectMessage _, b => .DisconnectMessage b
  | .HeartbeatMessage _ s md, b => .HeartbeatMessage b s md
  | .HeartbeatReplyMessage _ s, b => .HeartbeatReplyMessage b s
  | .ErrorMessage _ e, b => .ErrorMessage b e
  | .AppMessage _ p, b => .AppMessage b p

/-- True exactly for the `DisconnectMessage` variant. -/
def Msg.isDisconnectMsg : Msg → Bool
  | .DisconnectMessage _ => true
  | _ => false

/-- Modelled from the spec: `NewErrorMessage` (constructor of the reserved
`Error{message}` kind, defined outside the given source); header fields
other than the kind are zero values until the dispatcher stamps them. -/
def NewErrorMessage (text : String) : Msg :=
  .ErrorMessage { SenderID := "", RecipientID := "", MessageID := "", MsgType := "error" } text

/-- Modelled from the spec: `NewHeartbeatMessage` (constructor of the
reserved `Heartbeat{seq, metadata}` kind, defined outside the given
source). -/
def NewHeartbeatMessage (seq : Nat) (metadata : String) : Msg :=
  .HeartbeatMessage { SenderID := "", RecipientID := "", MessageID := "", MsgType := "heartbeat" } seq metadata

/-- Modelled from the spec: `NewHeartbeatReplyMessage` (constructor of the
reserved `HeartbeatReply{seq}` kind, defined outside the given source). -/
def NewHeartbeatReplyMessage (seq : Nat) : Msg :=
  .HeartbeatReplyMessage { SenderID := "", RecipientID := "", MessageID := "", MsgType := "heartbeat_reply" } seq

/-- The reflection-based header stamping of `handleMessage` (source lines
221–226): set `RecipientID`, `SenderID` and `MessageID` on the reply. -/
def stampHeader (res : Msg) (recipientID senderID messageID : String) : Msg :=
  res.withBase { res.base with
    RecipientID := recipientID, SenderID := senderID, MessageID := messageID }

/-! ## Connection registry, server state, and observable effects -/

/-- Modelled from the spec: `net.Client`, the Connection Record — logical
identity, per-connection send sequence counter, and the last latency
estimate (`Distance`, a `float64` holding a whole number of
milliseconds, modelled as `Int`).  The transport handle itself is not
modelled. -/
structure Client where
  ID : String
  Seq : Nat
  Distance : Int
deriving Repr, DecidableEq

/-- The `Server`: its identity, the Connection Registry (modelled from the
spec: the `net.Network` client table, identity → Connection Record), and
the Liveness Tracker `connectedClients`. -/
structure Server where
  ID : String
  Network : List (String × Client)
  connectedClients : List (String × ConnectedClientInfo)
deriving Repr, DecidableEq

/-- Events delivered to the Application Layer via
`arcade.ViewManager.ProcessEvent`. -/
inductive Event where
  | clientDisconnect (ClientID : String)
  | heartbeat (Metadata : String)
deriving Repr, DecidableEq

/-- The observable side effects of the dispatcher and the heartbeat task,
in program order: `SignalReceived`, Application-Layer events, network
sends (identified by the destination client's identity),
`ProcessMessage` invocations, and debug-render requests. -/
inductive Effect where
  | signalReceived (MessageID : String) (m : Msg)
  | processEvent (e : Event)
  | send (ClientID : String) (m : Msg)
  | processMessage (ClientID : String) (m : Msg)
  | requestDebugRender
deriving Repr, DecidableEq

/-- The result of the Application Layer's `ProcessMessage` (an
`interface{}` in the code): `nil`, an `error` value, or a reply message. -/
inductive Reply where
  | nil
  | err (e : String)
  | msg (m : Msg)
deriving Repr, DecidableEq

/-- The reply-sending tail of `handleMessage` (source lines 215–228): a
`nil` reply sends nothing; an error reply is first wrapped by
`NewErrorMessage`; the reply is stamped with `RecipientID = baseMsg.SenderID`,
`SenderID = selfID`, `MessageID = baseMsg.MessageID` and sent on the
originating connection `cID`. -/
def finishReply (selfID : String) (baseMsg : Message) (cID : String) : Reply → List Effect
  | .nil => []
  | .err e =>
      [.send cID (stampHeader (NewErrorMessage e) baseMsg.SenderID selfID baseMsg.MessageID)]
  | .msg m =>
      [.send cID (stampHeader m baseMsg.SenderID selfID baseMsg.MessageID)]

/-- `Server.handleMessage` (source lines 134–229), as a function from the
server state, the debug flag `arcade.Distributor`, the current time, the
Application Layer (`pm`, the `ProcessMessage` hook), the originating
connection `c` and the inbound message to the new state plus the trace
of effects.  `none` models the `panic` a Distributor instance performs on
a message addressed to itself (source line 181). -/
def Server.handleMessage (s : Server) (distributor : Bool) (now : Int)
    (pm : String → Msg → Reply) (c : Client) (msg : Msg) :
    Option (Server × List Effect) :=
  let baseMsg := msg.base
  let pre : List Effect := [.signalReceived baseMsg.MessageID msg]
  match msg with
  | .DisconnectMessage _ =>
      some ({ s with Network := eraseA s.Network c.ID },
        pre ++ [.processEvent (.clientDisconnect c.ID)])
  | _ =>
      if baseMsg.RecipientID ≠ s.ID then
        match getA s.Network baseMsg.RecipientID with
        | some recipient => some (s, pre ++ [.send recipient.ID msg])
        | none =>
            some (s, pre ++ finishReply s.ID baseMsg c.ID (.msg (NewErrorMessage "Invalid recipient")))
      else
        if distributor then none
        else
          match msg with
          | .HeartbeatMessage _ seq metadata =>
              let s1 :=
                match getA s.connectedClients baseMsg.SenderID with
                | some info =>
                    let info1 := { info with LastHeartbeat := now }
                    { s with
                      connectedClients := setA s.connectedClients baseMsg.SenderID info1,
                      Network := updateA s.Network c.ID (fun cl =>
                        { cl with Distance := durationMilliseconds info1.GetMeanRTT }) }
                | none => s
              some (s1,
                pre ++ [.processEvent (.heartbeat metadata)]
                  ++ finishReply s.ID baseMsg c.ID (.msg (NewHeartbeatReplyMessage seq)))
          | .HeartbeatReplyMessage _ seq =>
              if baseMsg.RecipientID = s.ID then
                let s1 :=
                  match getA s.connectedClients baseMsg.SenderID with
                  | some info =>
                      let info1 := { info with
                        LastHeartbeat := now,
                        RTTs := info.RTTs ++ [now - getDA info.HeartbeatSendTimes seq 0] }
                      { s with connectedClients := setA s.connectedClients baseMsg.SenderID info1 }
                  | none => s
                some (s1, pre ++ [.requestDebugRender])
              else some (s, pre)
          | _ =>
              some (s, pre ++ [.processMessage c.ID msg]
                ++ finishReply s.ID baseMsg c.ID (pm c.ID msg))

/-- `Server.BeginHeartbeats` (source lines 102–111). -/
def Server.BeginHeartbeats (s : Server) (now : Int) (clientID : String) : Server :=
  let info : ConnectedClientInfo :=
    { LastHeartbeat := now, HeartbeatSendTimes := [], RTTs := [] }
  { s with connectedClients := setA s.connectedClients clientID info }

/-- `Server.EndHeartbeats` (source lines 113–118). -/
def Server.EndHeartbeats (s : Server) (clientID : String) : Server :=
  { s with connectedClients := eraseA s.connectedClients clientID }

/-- The per-peer body of the `startHeartbeats` loop (source lines 78–94):
if the peer has no registry entry or has been silent for at least
`timeoutInterval`, raise a disconnect event and delete it from the
tracker; otherwise send a heartbeat carrying the connection's current
sequence number and the metadata snapshot, record the send time under
that sequence number, and increment the connection's counter. -/
def tickClient (metadata : String) (now : Int)
    (acc : Server × List Effect) (entry : String × ConnectedClientInfo) :
    Server × List Effect :=
  let s := acc.1
  let effs := acc.2
  let clientID := entry.1
  match getA s.Network clientID with
  | none =>
      ({ s with connectedClients := eraseA s.connectedClients clientID },
        effs ++ [.processEvent (.clientDisconnect clientID)])
  | some client =>
      if timeoutInterval ≤ now - entry.2.LastHeartbeat then
        ({ s with connectedClients := eraseA s.connectedClients clientID },
          effs ++ [.processEvent (.clientDisconnect clientID)])
      else
        let cc :=
          match getA s.connectedClients clientID with
          | some info =>
              setA s.connectedClients clientID
                { info with HeartbeatSendTimes := setA info.HeartbeatSendTimes client.Seq now }
          | none => s.connectedClients
        ({ s with
            connectedClients := cc,
            Network := updateA s.Network clientID (fun cl => { cl with Seq := cl.Seq + 1 }) },
          effs ++ [.send clientID (NewHeartbeatMessage client.Seq metadata)])

/-- One iteration of the `startHeartbeats` scheduler loop (source lines
74–100): the body executed under one lock acquisition per tick, iterating
over the tracked peers. -/
def Server.startHeartbeatsTick (s : Server) (now : Int) (metadata : String) :
    Server × List Effect :=
  s.connectedClients.foldl (tickClient metadata now) (s, [])

/-- Counts the disconnect events for `id` in an effect trace. -/
def countDisc : List Effect → String → Nat
  | [], _ => 0
  | e :: rest, id =>
      (if e = Effect.processEvent (.clientDisconnect id) then 1 else 0) + countDisc rest id

/-- The keys of the tracker (or registry) are pairwise distinct — the map
invariant Go maintains for `connectedClients`. -/
def keysNodup {ν : Type} (m : List (String × ν)) : Prop :=
  (m.map Prod.fst).Nodup

instance keysNodupDec {ν : Type} (m : List (String × ν)) : Decidable (keysNodup m) :=
  inferInstanceAs (Decidable ((m.map Prod.fst).Nodup))

/-! ## Lemmas about the association-list maps -/

theorem getA_setA_self (m : List (κ × ν)) (k : κ) (v : ν) :
    getA (setA m k v) k = some v := by
  induction m with
  | nil => simp [getA, setA]
  | cons p rest ih =>
      by_cases h : p.1 = k
      · simp [setA, getA, h]
      · simp [setA, getA, h, ih]

theorem getA_setA_ne (m : List (κ × ν)) (k k' : κ) (v : ν) (hk : k' ≠ k) :
    getA (setA m k v) k' = getA m k' := by
  induction m with
  | nil => simp [getA, setA, Ne.symm hk]
  | cons p rest ih =>
      by_cases h : p.1 = k
      · subst h
        simp [setA, getA, Ne.symm hk]
      · simp only [setA, if_neg h]
        by_cases h' : p.1 = k'
        · simp [getA, h']
        · simp [getA, h', ih]

theorem getA_eraseA_self (m : List (κ × ν)) (k : κ) :
    getA (eraseA m k) k = none := by
  induction m with
  | nil => simp [getA, eraseA]
  | cons p rest ih =>
      by_cases h : p.1 = k
      · simpa [eraseA, h] using ih
      · simpa [eraseA, getA, h] using ih

theorem getA_eraseA_ne (m : List (κ × ν)) (k k' : κ) (hk : k' ≠ k) :
    getA (eraseA m k) k' = getA m k' := by
  induction m with
  | nil => simp [getA, eraseA]
  | cons p rest ih =>
      by_cases h : p.1 = k
      · subst h
        simpa [eraseA, getA, Ne.symm hk] using ih
      · by_cases h' : p.1 = k'
        · simp [eraseA, getA, h, h', hk]
        · simpa [eraseA, getA, h, h'] using ih

theorem getA_updateA (m : List (κ × ν)) (k : κ) (f : ν → ν) (k' : κ) :
    getA (updateA m k f) k' =
      if k' = k then (getA m k').map f else getA m k' := by
  induction m with
  | nil => simp [getA, updateA]
  | cons p rest ih =>
      have hcons : updateA (p :: rest) k f =
          (if p.1 = k then (p.1, f p.2) else p) :: updateA rest k f := by
        simp [updateA]
      by_cases h : p.1 = k
      · rw [hcons, if_pos h]
        by_cases h' : p.1 = k'
        · rw [h'] at h
          simp [getA, h', h.symm, ih]
        · have hk' : ¬ k' = k := by
            intro hh
            exact h' (h.trans hh.symm)
          simp [getA, h', hk', ih]
      · rw [hcons, if_neg h]
        by_cases h' : p.1 = k'
        · have hk' : ¬ k' = k := by
            intro hh
            exact h (h'.trans hh)
          simp [getA, h', hk']
        · simp [getA, h', ih]

theorem getA_updateA_isSome (m : List (κ × ν)) (k : κ) (f : ν → ν) (k' : κ) :
    (getA (updateA m k f) k').isSome = (getA m k').isSome := by
  rw [getA_updateA]
  by_cases h : k' = k <;> simp [h]

theorem getA_eq_none_of_not_mem_keys (m : List (κ × ν)) (k : κ)
    (h : k ∉ m.map Prod.fst) : getA m k = none := by
  induction m with
  | nil => simp [getA]
  | cons p rest ih =>
      simp only [List.map_cons, List.mem_cons] at h
      push_neg at h
      simp [getA, Ne.symm h.1, ih h.2]

/-! ## The mean-RTT loop computes the sum and count of the last
`rttAverageNum + 1` samples -/

theorem getMeanRTTLoop_eq (RTTs : List Int) (i1 : Nat) (h : i1 ≤ RTTs.length)
    (s : Int) (c : Nat) :
    getMeanRTTLoop RTTs i1 s c =
      (s + (((RTTs.take i1).reverse).take ((rttAverageNum + 1) - (RTTs.length - i1))).sum,
       c + (((RTTs.take i1).reverse).take ((rttAverageNum + 1) - (RTTs.length - i1))).length) := by
  induction i1 generalizing s c with
  | zero => simp [getMeanRTTLoop]
  | succ i ih =>
      have hi : i < RTTs.length := h
      by_cases hcond : RTTs.length ≤ i + (rttAverageNum + 1)
      · rw [getMeanRTTLoop, if_pos hcond, ih (le_of_lt hi)]
        have ha : RTTs.length - (i + 1) ≤ rttAverageNum := by omega
        have hwin : (rttAverageNum + 1) - (RTTs.length - (i + 1)) =
            ((rttAverageNum + 1) - (RTTs.length - i)) + 1 := by omega
        have htake : RTTs.take (i + 1) = RTTs.take i ++ [RTTs[i]] := by
          rw [List.take_succ]
          simp [List.getElem?_eq_getElem hi]
        have hgetD : RTTs.getD i 0 = RTTs[i] := by
          simp [List.getD, List.getElem?_eq_getElem hi]
        rw [hwin, htake, hgetD]
        simp only [List.reverse_append, List.reverse_cons, List.reverse_nil,
          List.nil_append, List.singleton_append, List.take_succ_cons,
          List.sum_cons, List.length_cons, Prod.mk.injEq]
        exact ⟨by ring, by omega⟩
      · rw [getMeanRTTLoop, if_neg hcond]
        have hz : (rttAverageNum + 1) - (RTTs.length - (i + 1)) = 0 := by omega
        rw [hz]
        simp

/-- **C1** (amended): for every liveness record, `GetMeanRTT` returns the
arithmetic mean of at most the last `rttAverageNum + 1` (= 11) recorded
round-trip samples, taken most-recent-first from the sample history, and
the negative "unknown" sentinel when no samples exist.  (The claim's
window of `rttAverageNum` (= 10) is refuted by
`getMeanRTT_ten_window_cex`: the loop guard `i >= len-(rttAverageNum+1)`
admits eleven indices.) -/
theorem getMeanRTT_averages_last_eleven (c : ConnectedClientInfo) :
    c.GetMeanRTT = specMeanRTTLastN (rttAverageNum + 1) c.RTTs := by
  unfold ConnectedClientInfo.GetMeanRTT specMeanRTTLastN
  rw [getMeanRTTLoop_eq c.RTTs c.RTTs.length le_rfl 0 0]
  simp [List.take_length, neg_one_mul]

/-- **C1** (counterexample): with eleven recorded samples — oldest `11` ns
followed by ten `0` ns samples — the mean of the last `rttAverageNum`
(= 10) samples is `0`, but `GetMeanRTT` averages all eleven and returns
`1`; so the claim as stated fails. -/
theorem getMeanRTT_ten_window_cex :
    ConnectedClientInfo.GetMeanRTT
        { LastHeartbeat := 0, HeartbeatSendTimes := [],
          RTTs := [11, 0, 0, 0, 0, 0, 0, 0, 0, 0, 0] } ≠
      specMeanRTT [11, 0, 0, 0, 0, 0, 0, 0, 0, 0, 0] := by
  decide

/-! ## Dispatcher lemmas -/

theorem Msg.base_withBase (m : Msg) (b : Message) : (m.withBase b).base = b := by
  cases m <;> rfl

/-- **C3** (amended): handling an inbound `Disconnect` envelope raises one
disconnect event and removes the originating peer from the Connection
Registry only (`Network.Disconnect`); no server lock is taken and the
Liveness Tracker is left untouched — the tracker entry survives until the
next heartbeat tick evicts it.  (The claim's joint removal from both
structures is refuted by `disconnect_leaves_tracker_cex`.) -/
theorem disconnect_removes_registry_only (s : Server) (distributor : Bool)
    (now : Int) (pm : String → Msg → Reply) (c : Client) (b : Message) :
    s.handleMessage distributor now pm c (.DisconnectMessage b) =
      some ({ s with Network := eraseA s.Network c.ID },
        [.signalReceived b.MessageID (.DisconnectMessage b),
         .processEvent (.clientDisconnect c.ID)]) := rfl

/-- **C3** (counterexample): with peer `A` present in both the registry and
the tracker, handling `A`'s `Disconnect` envelope leaves `A` in the
Liveness Tracker (while removing it from the registry), so the claim that
afterwards the peer is present in neither structure fails. -/
theorem disconnect_leaves_tracker_cex :
    ((Server.handleMessage
        { ID := "B",
          Network := [("A", { ID := "A", Seq := 0, Distance := 0 })],
          connectedClients := [("A", { LastHeartbeat := 0, HeartbeatSendTimes := [], RTTs := [] })] }
        false 0 (fun _ _ => Reply.nil)
        { ID := "A", Seq := 0, Distance := 0 }
        (.DisconnectMessage { SenderID := "A", RecipientID := "B", MessageID := "", MsgType := "disconnect" })).map
      (fun r => ((getA r.1.connectedClients "A").isSome, (getA r.1.Network "A").isSome))) =
      some (true, false) := by
  decide

/-- **C6** (confirmed): an inbound non-`Disconnect` envelope whose recipient
differs from this instance's identity and is found in the Connection
Registry is forwarded to the recipient's connection unmodified (the very
same `msg` value), the server state is unchanged, and the Application
Layer's `ProcessMessage` is never invoked (no `processMessage` effect). -/
theorem forwarding_transparent (s : Server) (distributor : Bool) (now : Int)
    (pm : String → Msg → Reply) (c : Client) (msg : Msg) (recipient : Client)
    (hnd : msg.isDisconnectMsg = false)
    (hne : msg.base.RecipientID ≠ s.ID)
    (hfound : getA s.Network msg.base.RecipientID = some recipient) :
    s.handleMessage distributor now pm c msg =
      some (s, [.signalReceived msg.base.MessageID msg, .send recipient.ID msg]) := by
  cases msg with
  | DisconnectMessage b => simp [Msg.isDisconnectMsg] at hnd
  | HeartbeatMessage b seq md =>
      simp only [Msg.base] at hne hfound
      simp [Server.handleMessage, Msg.base, hne, hfound]
  | HeartbeatReplyMessage b seq =>
      simp only [Msg.base] at hne hfound
      simp [Server.handleMessage, Msg.base, hne, hfound]
  | ErrorMessage b e =>
      simp only [Msg.base] at hne hfound
      simp [Server.handleMessage, Msg.base, hne, hfound]
  | AppMessage b p =>
      simp only [Msg.base] at hne hfound
      simp [Server.handleMessage, Msg.base, hne, hfound]

/-- **C6** (witness): instance `C` forwards an application envelope
addressed to registered peer `D` byte-identically, with no
`processMessage` effect and no state change. -/
theorem forwarding_transparent_witness :
    Server.handleMessage
        { ID := "C",
          Network := [("D", { ID := "D", Seq := 3, Distance := 7 })],
          connectedClients := [] }
        false 0 (fun _ _ => Reply.nil)
        { ID := "A", Seq := 0, Distance := 0 }
        (.AppMessage { SenderID := "A", RecipientID := "D", MessageID := "m1", MsgType := "app" } "p") =
      some ({ ID := "C",
              Network := [("D", { ID := "D", Seq := 3, Distance := 7 })],
              connectedClients := [] },
        [.signalReceived "m1" (.AppMessage { SenderID := "A", RecipientID := "D", MessageID := "m1", MsgType := "app" } "p"),
         .send "D" (.AppMessage { SenderID := "A", RecipientID := "D", MessageID := "m1", MsgType := "app" } "p")]) :=
  forwarding_transparent ⟨"C", [("D", ⟨"D", 3, 7⟩)], []⟩ false 0 (fun _ _ => Reply.nil)
    ⟨"A", 0, 0⟩ (.AppMessage ⟨"A", "D", "m1", "app"⟩ "p") ⟨"D", 3, 7⟩
    (by decide) (by decide) (by decide)

/-- **C8** (confirmed): an inbound non-`Disconnect` envelope whose recipient
differs from this instance's identity and has no registry entry produces
exactly one `Error` envelope with message `"Invalid recipient"`, stamped
with the original sender as recipient, sent back on the originating
connection; the state is unchanged and nothing else is sent. -/
theorem invalid_recipient_error (s : Server) (distributor : Bool) (now : Int)
    (pm : String → Msg → Reply) (c : Client) (msg : Msg)
    (hnd : msg.isDisconnectMsg = false)
    (hne : msg.base.RecipientID ≠ s.ID)
    (hmiss : getA s.Network msg.base.RecipientID = none) :
    s.handleMessage distributor now pm c msg =
      some (s, [.signalReceived msg.base.MessageID msg,
        .send c.ID (Msg.ErrorMessage
          { SenderID := s.ID, RecipientID := msg.base.SenderID,
            MessageID := msg.base.MessageID, MsgType := "error" } "Invalid recipient")]) := by
  cases msg with
  | DisconnectMessage b => simp [Msg.isDisconnectMsg] at hnd
  | HeartbeatMessage b seq md =>
      simp only [Msg.base] at hne hmiss
      simp [Server.handleMessage, Msg.base, hne, hmiss, finishReply, stampHeader,
        NewErrorMessage, Msg.withBase]
  | HeartbeatReplyMessage b seq =>
      simp only [Msg.base] at hne hmiss
      simp [Server.handleMessage, Msg.base, hne, hmiss, finishReply, stampHeader,
        NewErrorMessage, Msg.withBase]
  | ErrorMessage b e =>
      simp only [Msg.base] at hne hmiss
      simp [Server.handleMessage, Msg.base, hne, hmiss, finishReply, stampHeader,
        NewErrorMessage, Msg.withBase]
  | AppMessage b p =>
      simp only [Msg.base] at hne hmiss
      simp [Server.handleMessage, Msg.base, hne, hmiss, finishReply, stampHeader,
        NewErrorMessage, Msg.withBase]

/-- **C8** (witness): instance `C` receives an envelope for unregistered
`D` and sends exactly one `Error{"Invalid recipient"}` back to the
original sender `A`. -/
theorem invalid_recipient_error_witness :
    Server.handleMessage
        { ID := "C", Network := [], connectedClients := [] }
        false 0 (fun _ _ => Reply.nil)
        { ID := "A", Seq := 0, Distance := 0 }
        (.AppMessage { SenderID := "A", RecipientID := "D", MessageID := "m2", MsgType := "app" } "p") =
      some ({ ID := "C", Network := [], connectedClients := [] },
        [.signalReceived "m2" (.AppMessage { SenderID := "A", RecipientID := "D", MessageID := "m2", MsgType := "app" } "p"),
         .send "A" (Msg.ErrorMessage
           { SenderID := "C", RecipientID := "A", MessageID := "m2", MsgType := "error" } "Invalid recipient")]) :=
  invalid_recipient_error ⟨"C", [], []⟩ false 0 (fun _ _ => Reply.nil)
    ⟨"A", 0, 0⟩ (.AppMessage ⟨"A", "D", "m2", "app"⟩ "p")
    (by decide) (by decide) (by decide)

/-- **C7** (confirmed): the reply-sending tail of the dispatcher.  A `nil`
reply sends nothing; an error reply is wrapped into an `Error` envelope;
every sent reply goes out on the originating connection `cID`, stamped
with `RecipientID` equal to the request's sender, `SenderID` equal to this
instance's identity, and `MessageID` (the correlation id) copied verbatim
from the request — in particular an empty correlation id stays empty. -/
theorem reply_stamping (selfID : String) (b : Message) (cID : String) :
    finishReply selfID b cID Reply.nil = [] ∧
    (∀ e, finishReply selfID b cID (Reply.err e) =
      [Effect.send cID (Msg.ErrorMessage
        { SenderID := selfID, RecipientID := b.SenderID,
          MessageID := b.MessageID, MsgType := "error" } e)]) ∧
    (∀ m, (stampHeader m b.SenderID selfID b.MessageID).base.RecipientID = b.SenderID
        ∧ (stampHeader m b.SenderID selfID b.MessageID).base.SenderID = selfID
        ∧ (stampHeader m b.SenderID selfID b.MessageID).base.MessageID = b.MessageID
        ∧ finishReply selfID b cID (Reply.msg m) =
            [Effect.send cID (stampHeader m b.SenderID selfID b.MessageID)]) := by
  refine ⟨rfl, fun e => rfl, fun m => ?_⟩
  exact ⟨by simp [stampHeader, Msg.base_withBase], by simp [stampHeader, Msg.base_withBase],
    by simp [stampHeader, Msg.base_withBase], rfl⟩

/-- **C9** (confirmed): an inbound `Heartbeat` addressed to this instance
from a tracked sender refreshes the sender's `LastHeartbeat` to now,
stores the (refreshed record's) mean-RTT in milliseconds as the
originating connection's `Distance`, delivers the heartbeat metadata to
the Application Layer, and sends back a `HeartbeatReply` carrying the same
sequence number. -/
theorem heartbeat_tracked_updates (s : Server) (now : Int)
    (pm : String → Msg → Reply) (c : Client) (b : Message)
    (seq : Nat) (md : String) (info : ConnectedClientInfo)
    (hrec : b.RecipientID = s.ID)
    (htr : getA s.connectedClients b.SenderID = some info) :
    s.handleMessage false now pm c (.HeartbeatMessage b seq md) =
      some ({ s with
          connectedClients := setA s.connectedClients b.SenderID { info with LastHeartbeat := now },
          Network := updateA s.Network c.ID (fun cl =>
            { cl with Distance := durationMilliseconds (ConnectedClientInfo.GetMeanRTT { info with LastHeartbeat := now }) }) },
        [.signalReceived b.MessageID (.HeartbeatMessage b seq md),
         .processEvent (.heartbeat md),
         .send c.ID (Msg.HeartbeatReplyMessage
           { SenderID := s.ID, RecipientID := b.SenderID,
             MessageID := b.MessageID, MsgType := "heartbeat_reply" } seq)]) := by
  simp [Server.handleMessage, Msg.base, hrec, htr, finishReply, stampHeader,
    NewHeartbeatReplyMessage, Msg.withBase]

/-- **C9** (witness): concrete instance of the tracked-heartbeat update,
with one prior 4 ms RTT sample so `Distance` becomes 4. -/
theorem heartbeat_tracked_updates_witness :
    Server.handleMessage
        { ID := "B",
          Network := [("A", { ID := "A", Seq := 0, Distance := 0 })],
          connectedClients := [("A", { LastHeartbeat := 0, HeartbeatSendTimes := [], RTTs := [4000000] })] }
        false 77 (fun _ _ => Reply.nil)
        { ID := "A", Seq := 0, Distance := 0 }
        (.HeartbeatMessage { SenderID := "A", RecipientID := "B", MessageID := "", MsgType := "heartbeat" } 5 "M") =
      some ({ ID := "B",
              Network := [("A", { ID := "A", Seq := 0, Distance := 4 })],
              connectedClients := [("A", { LastHeartbeat := 77, HeartbeatSendTimes := [], RTTs := [4000000] })] },
        [.signalReceived "" (.HeartbeatMessage { SenderID := "A", RecipientID := "B", MessageID := "", MsgType := "heartbeat" } 5 "M"),
         .processEvent (.heartbeat "M"),
         .send "A" (Msg.HeartbeatReplyMessage
           { SenderID := "B", RecipientID := "A", MessageID := "", MsgType := "heartbeat_reply" } 5)]) := by
  rw [heartbeat_tracked_updates ⟨"B", [("A", ⟨"A", 0, 0⟩)], [("A", ⟨0, [], [4000000]⟩)]⟩ 77
    (fun _ _ => Reply.nil) ⟨"A", 0, 0⟩ ⟨"A", "B", "", "heartbeat"⟩ 5 "M"
    ⟨0, [], [4000000]⟩ (by decide) (by decide)]
  decide

/-- **C10** (confirmed): an inbound `Heartbeat` addressed to this instance
whose sender is not in the liveness table still produces the metadata
event and the `HeartbeatReply` with the same sequence number, but the
server state — in particular the liveness table and the connection's
`Distance` — is completely unchanged. -/
theorem heartbeat_untracked_still_replies (s : Server) (now : Int)
    (pm : String → Msg → Reply) (c : Client) (b : Message)
    (seq : Nat) (md : String)
    (hrec : b.RecipientID = s.ID)
    (htr : getA s.connectedClients b.SenderID = none) :
    s.handleMessage false now pm c (.HeartbeatMessage b seq md) =
      some (s,
        [.signalReceived b.MessageID (.HeartbeatMessage b seq md),
         .processEvent (.heartbeat md),
         .send c.ID (Msg.HeartbeatReplyMessage
           { SenderID := s.ID, RecipientID := b.SenderID,
             MessageID := b.MessageID, MsgType := "heartbeat_reply" } seq)]) := by
  simp [Server.handleMessage, Msg.base, hrec, htr, finishReply, stampHeader,
    NewHeartbeatReplyMessage, Msg.withBase]

/-- **C10** (witness): concrete instance of the untracked-heartbeat case. -/
theorem heartbeat_untracked_still_replies_witness :
    Server.handleMessage
        { ID := "B", Network := [], connectedClients := [] }
        false 9 (fun _ _ => Reply.nil)
        { ID := "A", Seq := 0, Distance := 0 }
        (.HeartbeatMessage { SenderID := "A", RecipientID := "B", MessageID := "", MsgType := "heartbeat" } 2 "M") =
      some ({ ID := "B", Network := [], connectedClients := [] },
        [.signalReceived "" (.HeartbeatMessage { SenderID := "A", RecipientID := "B", MessageID := "", MsgType := "heartbeat" } 2 "M"),
         .processEvent (.heartbeat "M"),
         .send "A" (Msg.HeartbeatReplyMessage
           { SenderID := "B", RecipientID := "A", MessageID := "", MsgType := "heartbeat_reply" } 2)]) :=
  heartbeat_untracked_still_replies ⟨"B", [], []⟩ 9 (fun _ _ => Reply.nil)
    ⟨"A", 0, 0⟩ ⟨"A", "B", "", "heartbeat"⟩ 2 "M" (by decide) (by decide)

/-- **C4** (amended): an inbound `HeartbeatReply` addressed to this
instance from a tracked sender reads (but does not delete) the pending
send timestamp for its sequence number, appends exactly one round-trip
sample `now - sendTime`, refreshes `LastHeartbeat`, requests a debug
render, and sends no reply envelope; the pending `HeartbeatSendTimes` map
is left unchanged.  (The claim's removal of the pending entry is refuted
by `heartbeat_reply_pending_kept_cex`: the code never deletes from
`HeartbeatSendTimes`.) -/
theorem heartbeat_reply_appends_sample (s : Server) (now : Int)
    (pm : String → Msg → Reply) (c : Client) (b : Message)
    (seq : Nat) (info : ConnectedClientInfo)
    (hrec : b.RecipientID = s.ID)
    (htr : getA s.connectedClients b.SenderID = some info) :
    s.handleMessage false now pm c (.HeartbeatReplyMessage b seq) =
      some ({ s with connectedClients := setA s.connectedClients b.SenderID { info with LastHeartbeat := now, RTTs := info.RTTs ++ [now - getDA info.HeartbeatSendTimes seq 0] } },
        [.signalReceived b.MessageID (.HeartbeatReplyMessage b seq),
         .requestDebugRender]) := by
  simp [Server.handleMessage, Msg.base, hrec, htr]

/-- **C4** (witness): concrete tracked `HeartbeatReply`: pending timestamp
100 at sequence 5, reply handled at time 250, appending the sample 150. -/
theorem heartbeat_reply_appends_sample_witness :
    Server.handleMessage
        { ID := "B",
          Network := [("A", { ID := "A", Seq := 6, Distance := 0 })],
          connectedClients := [("A", { LastHeartbeat := 0, HeartbeatSendTimes := [(5, 100)], RTTs := [] })] }
        false 250 (fun _ _ => Reply.nil)
        { ID := "A", Seq := 6, Distance := 0 }
        (.HeartbeatReplyMessage { SenderID := "A", RecipientID := "B", MessageID := "", MsgType := "heartbeat_reply" } 5) =
      some ({ ID := "B",
              Network := [("A", { ID := "A", Seq := 6, Distance := 0 })],
              connectedClients := [("A", { LastHeartbeat := 250, HeartbeatSendTimes := [(5, 100)], RTTs := [150] })] },
        [.signalReceived "" (.HeartbeatReplyMessage { SenderID := "A", RecipientID := "B", MessageID := "", MsgType := "heartbeat_reply" } 5),
         .requestDebugRender]) := by
  rw [heartbeat_reply_appends_sample ⟨"B", [("A", ⟨"A", 6, 0⟩)], [("A", ⟨0, [(5, 100)], []⟩)]⟩ 250
    (fun _ _ => Reply.nil) ⟨"A", 6, 0⟩ ⟨"A", "B", "", "heartbeat_reply"⟩ 5
    ⟨0, [(5, 100)], []⟩ (by decide) (by decide)]
  decide

/-- **C4** (counterexample): after handling the matching `HeartbeatReply`
for pending sequence 5, the pending entry `(5, 100)` is still present in
`HeartbeatSendTimes`, refuting the claim that the handler removes it. -/
theorem heartbeat_reply_pending_kept_cex :
    ((Server.handleMessage
        { ID := "B",
          Network := [("A", { ID := "A", Seq := 6, Distance := 0 })],
          connectedClients := [("A", { LastHeartbeat := 0, HeartbeatSendTimes := [(5, 100)], RTTs := [] })] }
        false 250 (fun _ _ => Reply.nil)
        { ID := "A", Seq := 6, Distance := 0 }
        (.HeartbeatReplyMessage { SenderID := "A", RecipientID := "B", MessageID := "", MsgType := "heartbeat_reply" } 5)).map
      (fun r => (getA r.1.connectedClients "A").map ConnectedClientInfo.HeartbeatSendTimes)) =
      some (some [(5, 100)]) := by
  decide

/-! ## Heartbeat scheduler tick lemmas -/

theorem countDisc_append (l1 l2 : List Effect) (id : String) :
    countDisc (l1 ++ l2) id = countDisc l1 id + countDisc l2 id := by
  induction l1 with
  | nil => simp [countDisc]
  | cons e rest ih =>
      simp only [List.cons_append, countDisc]
      have happ : rest.append l2 = rest ++ l2 := rfl
      rw [happ, ih]
      omega

/-- A tick step never adds or removes Connection Registry entries (it only
increments a send counter), so registry membership is invariant. -/
theorem tickClient_network_isSome (md : String) (now : Int)
    (acc : Server × List Effect) (e : String × ConnectedClientInfo) (id : String) :
    (getA (tickClient md now acc e).1.Network id).isSome =
      (getA acc.1.Network id).isSome := by
  unfold tickClient
  cases hg : getA acc.1.Network e.1 with
  | none => simp [hg]
  | some client =>
      by_cases ht : timeoutInterval ≤ now - e.2.LastHeartbeat
      · simp [hg, ht]
      · cases hcc : getA acc.1.connectedClients e.1 <;>
          simp [hg, hcc, ht, getA_updateA_isSome]

/-- A tick step only touches the tracker entry of the peer it processes. -/
theorem tickClient_tracker_ne (md : String) (now : Int)
    (acc : Server × List Effect) (e : String × ConnectedClientInfo) (id : String)
    (h : id ≠ e.1) :
    getA (tickClient md now acc e).1.connectedClients id =
      getA acc.1.connectedClients id := by
  unfold tickClient
  cases hg : getA acc.1.Network e.1 with
  | none => simp [hg, getA_eraseA_ne _ _ _ h]
  | some client =>
      by_cases ht : timeoutInterval ≤ now - e.2.LastHeartbeat
      · simp [hg, ht, getA_eraseA_ne _ _ _ h]
      · cases hcc : getA acc.1.connectedClients e.1 with
        | none => simp [hg, hcc, ht]
        | some info => simp [hg, hcc, ht, getA_setA_ne _ _ _ _ h]

/-- A tick step only raises disconnect events for the peer it processes. -/
theorem tickClient_countDisc_ne (md : String) (now : Int)
    (acc : Server × List Effect) (e : String × ConnectedClientInfo) (id : String)
    (h : id ≠ e.1) :
    countDisc (tickClient md now acc e).2 id = countDisc acc.2 id := by
  unfold tickClient
  cases hg : getA acc.1.Network e.1 with
  | none => simp [hg, countDisc_append, countDisc, Ne.symm h]
  | some client =>
      by_cases ht : timeoutInterval ≤ now - e.2.LastHeartbeat
      · simp [hg, ht, countDisc_append, countDisc, Ne.symm h]
      · cases hcc : getA acc.1.connectedClients e.1 <;>
          simp [hg, hcc, ht, countDisc_append, countDisc]

theorem foldl_tick_network_isSome (md : String) (now : Int)
    (entries : List (String × ConnectedClientInfo)) (acc : Server × List Effect)
    (id : String) :
    (getA (entries.foldl (tickClient md now) acc).1.Network id).isSome =
      (getA acc.1.Network id).isSome := by
  induction entries generalizing acc with
  | nil => rfl
  | cons e rest ih =>
      rw [List.foldl_cons, ih, tickClient_network_isSome]

theorem foldl_tick_tracker_ne (md : String) (now : Int)
    (entries : List (String × ConnectedClientInfo)) (acc : Server × List Effect)
    (id : String) (h : id ∉ entries.map Prod.fst) :
    getA (entries.foldl (tickClient md now) acc).1.connectedClients id =
      getA acc.1.connectedClients id := by
  induction entries generalizing acc with
  | nil => rfl
  | cons e rest ih =>
      simp only [List.map_cons, List.mem_cons] at h
      push_neg at h
      rw [List.foldl_cons, ih _ h.2, tickClient_tracker_ne _ _ _ _ _ h.1]

theorem foldl_tick_countDisc_ne (md : String) (now : Int)
    (entries : List (String × ConnectedClientInfo)) (acc : Server × List Effect)
    (id : String) (h : id ∉ entries.map Prod.fst) :
    countDisc (entries.foldl (tickClient md now) acc).2 id = countDisc acc.2 id := by
  induction entries generalizing acc with
  | nil => rfl
  | cons e rest ih =>
      simp only [List.map_cons, List.mem_cons] at h
      push_neg at h
      rw [List.foldl_cons, ih _ h.2, tickClient_countDisc_ne _ _ _ _ _ h.1]

/-- Core eviction lemma for the scheduler loop: a tracked peer that has no
registry entry or has timed out is deleted from the tracker by the fold
and gets exactly one disconnect event. -/
theorem foldl_tick_evicts (md : String) (now : Int)
    (entries : List (String × ConnectedClientInfo)) (acc : Server × List Effect)
    (clientID : String) (info : ConnectedClientInfo)
    (hnd : (entries.map Prod.fst).Nodup)
    (hmem : (clientID, info) ∈ entries)
    (hcond : getA acc.1.Network clientID = none ∨
      timeoutInterval ≤ now - info.LastHeartbeat) :
    getA (entries.foldl (tickClient md now) acc).1.connectedClients clientID = none ∧
    countDisc (entries.foldl (tickClient md now) acc).2 clientID =
      countDisc acc.2 clientID + 1 := by
  induction entries generalizing acc with
  | nil => cases hmem
  | cons e rest ih =>
      obtain ⟨eid, einfo⟩ := e
      simp only [List.map_cons, List.nodup_cons] at hnd
      rw [List.foldl_cons]
      rcases List.mem_cons.mp hmem with heq | hrest
      · obtain ⟨h1, h2⟩ := Prod.mk.injEq _ _ _ _ ▸ heq
        subst h1
        subst h2
        have hstep :
            getA (tickClient md now acc (clientID, info)).1.connectedClients clientID = none ∧
            countDisc (tickClient md now acc (clientID, info)).2 clientID =
              countDisc acc.2 clientID + 1 := by
          unfold tickClient
          cases hg : getA acc.1.Network clientID with
          | none =>
              simp [hg, getA_eraseA_self, countDisc_append, countDisc]
          | some client =>
              have ht : timeoutInterval ≤ now - info.LastHeartbeat := by
                rcases hcond with h0 | h0
                · rw [hg] at h0
                  cases h0
                · exact h0
              simp [hg, ht, getA_eraseA_self, countDisc_append, countDisc]
        refine ⟨?_, ?_⟩
        · rw [foldl_tick_tracker_ne _ _ _ _ _ hnd.1, hstep.1]
        · rw [foldl_tick_countDisc_ne _ _ _ _ _ hnd.1, hstep.2]
      · have hkey : clientID ∈ rest.map Prod.fst :=
          List.mem_map.mpr ⟨(clientID, info), hrest, rfl⟩
        have hne : clientID ≠ eid := by
          intro hh
          exact hnd.1 (hh ▸ hkey)
        have hcond' : getA (tickClient md now acc (eid, einfo)).1.Network clientID = none ∨
            timeoutInterval ≤ now - info.LastHeartbeat := by
          rcases hcond with h0 | h0
          · left
            have hs := tickClient_network_isSome md now acc (eid, einfo) clientID
            rw [h0] at hs
            simp only [Option.isSome_none] at hs
            cases hx : getA (tickClient md now acc (eid, einfo)).1.Network clientID with
            | none => rfl
            | some v =>
                rw [hx] at hs
                simp at hs
          · exact Or.inr h0
        have hmain := ih (tickClient md now acc (eid, einfo)) hnd.2 hrest hcond'
        refine ⟨hmain.1, ?_⟩
        rw [hmain.2, tickClient_countDisc_ne _ _ _ _ _ hne]

/-- **C2** (amended): at a scheduler tick, a tracked peer that has not been
heard from for at least `timeoutInterval` (or has lost its registry entry)
receives exactly one disconnect event and is removed from the Liveness
Tracker; however the tick leaves Connection Registry membership unchanged
for every identity — the timed-out peer is *not* removed from the
registry.  (The claim that it is absent from both structures is refuted by
`heartbeat_timeout_registry_cex`: the loop never calls
`Network.Disconnect`.) -/
theorem heartbeat_timeout_evicts_tracker_only (s : Server) (now : Int) (md : String)
    (clientID : String) (info : ConnectedClientInfo)
    (hnd : keysNodup s.connectedClients)
    (hmem : (clientID, info) ∈ s.connectedClients)
    (hcond : getA s.Network clientID = none ∨
      timeoutInterval ≤ now - info.LastHeartbeat) :
    getA (s.startHeartbeatsTick now md).1.connectedClients clientID = none ∧
    countDisc (s.startHeartbeatsTick now md).2 clientID = 1 ∧
    (∀ id, (getA (s.startHeartbeatsTick now md).1.Network id).isSome =
      (getA s.Network id).isSome) := by
  have hunfold : s.startHeartbeatsTick now md =
      s.connectedClients.foldl (tickClient md now) (s, []) := rfl
  have h := foldl_tick_evicts md now s.connectedClients (s, []) clientID info hnd hmem hcond
  rw [hunfold]
  refine ⟨h.1, ?_, ?_⟩
  · rw [h.2]
    rfl
  · intro id
    exact foldl_tick_network_isSome md now s.connectedClients (s, []) id

/-- **C2** (witness): a peer last heard from at time 0, ticked at
`timeoutInterval`, is evicted from the tracker with one disconnect event,
and its registry membership is untouched. -/
theorem heartbeat_timeout_evicts_tracker_only_witness :
    getA (Server.startHeartbeatsTick ⟨"B", [("A", ⟨"A", 0, 0⟩)], [("A", ⟨0, [], []⟩)]⟩
      timeoutInterval "").1.connectedClients "A" = none ∧
    countDisc (Server.startHeartbeatsTick ⟨"B", [("A", ⟨"A", 0, 0⟩)], [("A", ⟨0, [], []⟩)]⟩
      timeoutInterval "").2 "A" = 1 ∧
    (getA (Server.startHeartbeatsTick ⟨"B", [("A", ⟨"A", 0, 0⟩)], [("A", ⟨0, [], []⟩)]⟩
      timeoutInterval "").1.Network "A").isSome = (getA [("A", (⟨"A", 0, 0⟩ : Client))] "A").isSome := by
  have h := heartbeat_timeout_evicts_tracker_only
    ⟨"B", [("A", ⟨"A", 0, 0⟩)], [("A", ⟨0, [], []⟩)]⟩ timeoutInterval "" "A" ⟨0, [], []⟩
    (by decide) (by decide) (Or.inr (by decide))
  exact ⟨h.1, h.2.1, h.2.2 "A"⟩

/-- **C2** (counterexample): after the tick that detects the timeout, the
peer is gone from the tracker but still present in the Connection
Registry, refuting the claim that it is absent from both. -/
theorem heartbeat_timeout_registry_cex :
    ((getA (Server.startHeartbeatsTick ⟨"B", [("A", ⟨"A", 0, 0⟩)], [("A", ⟨0, [], []⟩)]⟩
        timeoutInterval "").1.connectedClients "A").isSome,
     (getA (Server.startHeartbeatsTick ⟨"B", [("A", ⟨"A", 0, 0⟩)], [("A", ⟨0, [], []⟩)]⟩
        timeoutInterval "").1.Network "A").isSome) = (false, true) := by
  decide

/-- Inclusion invariant for the scheduler loop: any identity surviving in
the tracker after the fold has a registry entry. -/
theorem foldl_tick_inclusion (md : String) (now : Int)
    (entries : List (String × ConnectedClientInfo)) (acc : Server × List Effect)
    (hnd : (entries.map Prod.fst).Nodup)
    (H : ∀ id, id ∉ entries.map Prod.fst →
      (getA acc.1.connectedClients id).isSome = true →
      (getA acc.1.Network id).isSome = true) :
    ∀ id, (getA (entries.foldl (tickClient md now) acc).1.connectedClients id).isSome = true →
      (getA (entries.foldl (tickClient md now) acc).1.Network id).isSome = true := by
  induction entries generalizing acc with
  | nil =>
      intro id h
      exact H id (by simp) h
  | cons e rest ih =>
      obtain ⟨eid, einfo⟩ := e
      simp only [List.map_cons, List.nodup_cons] at hnd
      rw [List.foldl_cons]
      apply ih _ hnd.2
      intro id hid htr
      by_cases hide : id = eid
      · subst hide
        cases hg : getA acc.1.Network id with
        | none =>
            simp only [tickClient, hg] at htr
            simp [getA_eraseA_self] at htr
        | some client =>
            by_cases ht : timeoutInterval ≤ now - einfo.LastHeartbeat
            · simp only [tickClient, hg, if_pos ht] at htr
              simp [getA_eraseA_self] at htr
            · simp only [tickClient, hg, if_neg ht]
              rw [getA_updateA_isSome, hg]
              rfl
      · have hid' : id ∉ rest.map Prod.fst := hid
        have h1 := tickClient_tracker_ne md now acc (eid, einfo) id hide
        have h2 := tickClient_network_isSome md now acc (eid, einfo) id
        rw [h1] at htr
        rw [h2]
        exact H id (by simp [hide, hid']) htr

/-- **C5** (amended): the spec's inclusion (every identity in the Liveness
Tracker is also in the Connection Registry) holds after every heartbeat
scheduler tick — the tick evicts any tracker entry whose identity lacks a
registry entry — but it is not an invariant of every operation: handling a
`Disconnect` envelope removes the registry entry while leaving the tracker
entry (see `disconnect_breaks_inclusion_cex`), and `BeginHeartbeats`
inserts a tracker entry without consulting the registry. -/
theorem tracker_subset_registry_after_tick (s : Server) (now : Int) (md : String)
    (hnd : keysNodup s.connectedClients) :
    ∀ id, (getA (s.startHeartbeatsTick now md).1.connectedClients id).isSome = true →
      (getA (s.startHeartbeatsTick now md).1.Network id).isSome = true := by
  apply foldl_tick_inclusion md now s.connectedClients (s, []) hnd
  intro id hid htr
  rw [getA_eq_none_of_not_mem_keys s.connectedClients id hid] at htr
  cases htr

/-- **C5** (witness): after a tick of a server whose tracked peer `A` is
registered and fresh, `A` survives in the tracker and is (still) present
in the registry. -/
theorem tracker_subset_registry_after_tick_witness :
    (getA (Server.startHeartbeatsTick ⟨"B", [("A", ⟨"A", 0, 0⟩)], [("A", ⟨0, [], []⟩)]⟩
      0 "").1.Network "A").isSome = true :=
  tracker_subset_registry_after_tick ⟨"B", [("A", ⟨"A", 0, 0⟩)], [("A", ⟨0, [], []⟩)]⟩
    0 "" (by decide) "A" (by decide)

/-- **C5** (counterexample): the inclusion is not preserved by every
operation — handling a `Disconnect` envelope from tracked registered peer
`P` leaves `P` in the Liveness Tracker while removing it from the
Connection Registry, so immediately afterwards the tracker is not a
subset of the registry. -/
theorem disconnect_breaks_inclusion_cex :
    ((Server.handleMessage
        { ID := "Q",
          Network := [("P", { ID := "P", Seq := 1, Distance := 0 })],
          connectedClients := [("P", { LastHeartbeat := 5, HeartbeatSendTimes := [], RTTs := [3] })] }
        false 10 (fun _ _ => Reply.nil)
        { ID := "P", Seq := 1, Distance := 0 }
        (.DisconnectMessage { SenderID := "P", RecipientID := "Q", MessageID := "", MsgType := "disconnect" })).map
      (fun r => ((getA r.1.connectedClients "P").isSome && !(getA r.1.Network "P").isSome))) =
      some true := by
  decide

end Arcade
